import Mathlib

/-!
Shallow embedding of the EGAISCHEK verification-session client
(src/egaicheck/check_client.py) and proofs about its discovery and
submission logic.

The HTML documents handled by BeautifulSoup are modelled as element trees
(`Node`); Python dicts (insertion-ordered, last assignment wins, update in
place) are modelled as association lists with the exact dict operations
used by the code (`dictSet`, `dictGet`, `dictPop`, `dictUpdate`).
`prepareCheck` mirrors `Check1FsrarClient.prepare_check` up to the point
where network I/O starts (it returns the chosen captcha `<img>` element
instead of fetching its bytes), and `submitCheck` mirrors the request
construction of `Check1FsrarClient.submit_check`.
-/

/-! ## String utilities (Python `.lower()`, `in`, `.endswith`) -/

/-- Lower-case every character of a string, as Python's `str.lower` does for
ASCII names. -/
def strLower (s : String) : String := String.mk (s.data.map Char.toLower)

/-- Boolean test that `p` is a prefix of `l`. -/
def chStarts : List Char → List Char → Bool
  | [], _ => true
  | _ :: _, [] => false
  | a :: as, b :: bs => a = b && chStarts as bs

/-- Boolean test that `p` occurs as a contiguous sublist of `l`
(Python's `p in l` on strings). -/
def chSub (p : List Char) : List Char → Bool
  | [] => p.isEmpty
  | c :: rest => chStarts p (c :: rest) || chSub p rest

/-- Python `pat in s` for strings. -/
def strHas (s pat : String) : Bool := chSub pat.data s.data

/-- Python `s.endswith(pat)`. -/
def strEnds (s pat : String) : Bool := chStarts pat.data.reverse s.data.reverse

/-! ## Python dict model

A dict is an insertion-ordered association list with unique keys when built
by the operations below.  `dictSet` is `d[k] = v` (overwrite keeps the
position, a new key is appended), `dictGet` is `d.get(k)`, `dictPop` is
`d.pop(k, None)`, `dictUpdate` is `d.update(other)`. -/

abbrev Dict := List (String × String)

/-- Python `d.get(k)` (`None` becomes `none`): value of the entry holding
the key. -/
def dictGet (d : Dict) (k : String) : Option String :=
  match d with
  | [] => none
  | p :: rest => if p.1 = k then some p.2 else dictGet rest k

/-- Python `d[k] = v`: overwrite the entry in place when the key is
present (its position is kept), else append a new entry. -/
def dictSet (d : Dict) (k v : String) : Dict :=
  match d with
  | [] => [(k, v)]
  | p :: rest => if p.1 = k then (k, v) :: rest else p :: dictSet rest k v

/-- Python `d.pop(k, None)`, keeping the remaining dict. -/
def dictPop (d : Dict) (k : String) : Dict :=
  match d with
  | [] => []
  | p :: rest => if p.1 = k then dictPop rest k else p :: dictPop rest k

/-- Python `d.update(other)`: assign every pair of `other` in order. -/
def dictUpdate (d other : Dict) : Dict :=
  other.foldl (fun acc p => dictSet acc p.1 p.2) d

/-! ## HTML element trees and the BeautifulSoup operations the client uses -/

/-- An HTML element: tag name, attribute list, children.  Text nodes are
irrelevant to the client and are omitted. -/
inductive Node : Type where
  | elem : String → List (String × String) → List Node → Node

/-- Tag name of an element. -/
def Node.tag : Node → String
  | .elem t _ _ => t

/-- Attribute list of an element. -/
def Node.attrs : Node → List (String × String)
  | .elem _ a _ => a

/-- Children of an element. -/
def Node.children : Node → List Node
  | .elem _ _ c => c

/-- BeautifulSoup `el.get(key)`: the attribute value, or `none`. -/
def Node.attr (n : Node) (k : String) : Option String :=
  (n.attrs.find? (fun p => p.1 == k)).map (fun p => p.2)

mutual
/-- All elements with the given tag in pre-order (the element itself
included when it matches), as BeautifulSoup `find_all(tag)` enumerates
matches in document order. -/
def Node.findAllTag (tag : String) : Node → List Node
  | .elem t a c =>
    (if t = tag then [Node.elem t a c] else []) ++ Node.findAllTagList tag c

/-- Pre-order tag search over a list of sibling elements. -/
def Node.findAllTagList (tag : String) : List Node → List Node
  | [] => []
  | n :: ns => Node.findAllTag tag n ++ Node.findAllTagList tag ns
end

/-- BeautifulSoup `find(tag)`: the first matching element in document
order, if any. -/
def Node.findTag (tag : String) (n : Node) : Option Node :=
  (Node.findAllTag tag n).head?

/-! ## URL resolution -/

/-- Characters of a URL up to and including the last slash (the base
directory a relative reference is appended to). -/
def chDirOf (cs : List Char) : List Char :=
  ((cs.reverse.dropWhile (fun c => c ≠ '/'))).reverse

/-- Split a URL's characters right after the first `://`, returning the
part up to and including `://` and the rest. -/
def chAfterScheme : List Char → List Char × List Char
  | ':' :: '/' :: '/' :: rest => ([':', '/', '/'], rest)
  | c :: rest =>
    let p := chAfterScheme rest
    (c :: p.1, p.2)
  | [] => ([], [])

/-- Scheme plus authority of a URL (everything before the path). -/
def urlOriginOf (base : String) : String :=
  let p := chAfterScheme base.data
  String.mk (p.1 ++ p.2.takeWhile (fun c => c ≠ '/'))

/-- Modelled from the spec: the URL resolution performed by
`urllib.parse.urljoin` (library code outside src/).  An empty action
resolves to the base URL itself; an absolute URL stands alone; a
root-relative path is appended to the base's origin; any other relative
path replaces the last segment of the base. -/
def urljoin (base rel : String) : String :=
  if rel = "" then base
  else if chSub "://".data rel.data then rel
  else if chStarts ['/'] rel.data then urlOriginOf base ++ rel
  else String.mk (chDirOf base.data) ++ rel

/-! ## The client's data model (check_client.py) -/

/-- BASE_URL of check_client.py. -/
def BASE_URL : String := "https://check1.fsrar.ru/"

/-- The `PendingCheck` dataclass: data required to submit a mark
verification request. -/
structure PendingCheck where
  mark_code : String
  action_url : String
  mark_field : String
  captcha_field : String
  extra_fields : Dict
  headers : Dict
deriving DecidableEq

/-- Discovery-time structural failures raised by `prepare_check`. -/
inductive DiscoverError : Type where
  | noFormFound
  | noMarkFieldFound
  | noCaptchaImageFound
deriving DecidableEq

/-- Result of a successful `prepare_check`, up to network I/O: the pending
metadata plus the captcha `<img>` element whose `src` would be fetched. -/
structure PrepareResult where
  pending : PendingCheck
  captchaImg : Node

/-! ## Field classification (the input loop of prepare_check, lines 64-77) -/

/-- Python `input_el.get("name")` followed by `if not name: continue`:
the name attribute when present and non-empty. -/
def inputName (n : Node) : Option String :=
  match n.attr "name" with
  | none => none
  | some s => if s = "" then none else some s

/-- Python `input_el.get("value", "")`. -/
def inputValue (n : Node) : String := (n.attr "value").getD ""

/-- Python `(input_el.get("type") or "").lower()`. -/
def inputType (n : Node) : String := strLower ((n.attr "type").getD "")

/-- The substrings whose presence in a lower-cased name marks an input as
the mark-code field. -/
def markKeys : List String := ["mark", "kod", "code", "datamatrix", "shtrih", "sdata"]

/-- Lower-cased name test of the mark-field heuristic:
`any(key in name_lower for key in (...))`. -/
def isMarkName (nameLower : String) : Bool :=
  markKeys.any (fun k => strHas nameLower k)

/-- Full mark-field candidate test on an input element:
type in `{"text", "search", "tel", ""}` and the name heuristic. -/
def isMarkInput (n : Node) (name : String) : Bool :=
  (inputType n ∈ ["text", "search", "tel", ""] : Bool) && isMarkName (strLower name)

/-- Captcha-field test: `"captcha" in name_lower or name_lower.endswith("_captcha")`. -/
def isCaptchaName (nameLower : String) : Bool :=
  strHas nameLower "captcha" || strEnds nameLower "_captcha"

/-- Test that an input does not carry a name whose lower-cased form
contains `captcha` (unnamed inputs pass vacuously). -/
def noCaptchaNamed (i : Node) : Bool :=
  match inputName i with
  | none => true
  | some nm => !(strHas (strLower nm) "captcha")

/-- Accumulator of the input loop: `hidden_fields`, `mark_field`,
`captcha_field`. -/
abbrev ClassifyState := Dict × Option String × Option String

/-- One iteration of the input loop of prepare_check. -/
def classifyStep (st : ClassifyState) (n : Node) : ClassifyState :=
  match inputName n with
  | none => st
  | some name =>
    (dictSet st.1 name (inputValue n),
     if isMarkInput n name then some name else st.2.1,
     if isCaptchaName (strLower name) then some name else st.2.2)

/-- The whole input loop over `form.find_all("input")`. -/
def classifyFold (inputs : List Node) (st : ClassifyState) : ClassifyState :=
  inputs.foldl classifyStep st

/-! ## Specification-side views of the loop, used to state theorems -/

/-- Names, in document order, of the inputs that satisfy the mark-field
candidate condition. -/
def markCandidateNames (inputs : List Node) : List String :=
  inputs.filterMap (fun n =>
    match inputName n with
    | none => none
    | some name => if isMarkInput n name then some name else none)

/-- Names, in document order, of the inputs that satisfy the captcha-field
condition. -/
def captchaMatchNames (inputs : List Node) : List String :=
  inputs.filterMap (fun n =>
    match inputName n with
    | none => none
    | some name => if isCaptchaName (strLower name) then some name else none)

/-- Values, in document order, of the named inputs carrying a given
name. -/
def namedValues (inputs : List Node) (k : String) : List String :=
  inputs.filterMap (fun n =>
    match inputName n with
    | none => none
    | some name => if name = k then some (inputValue n) else none)

/-- The value the form's named inputs give to a name: the value of the
last input carrying that name (a later input overwrites an earlier one in
the dict), `none` when no input carries it. -/
def lastValueOf (inputs : List Node) (k : String) : Option String :=
  (namedValues inputs k).getLast?

/-! ## prepare_check and submit_check -/

/-- First `<img>` anywhere in the document whose `src` is present,
non-empty and contains `captcha` case-insensitively: the fallback
`soup.find("img", src=lambda src: src and "captcha" in src.lower())`. -/
def findCaptchaImg (doc : Node) : Option Node :=
  (Node.findAllTag "img" doc).find? (fun i =>
    match i.attr "src" with
    | none => false
    | some s => (s ≠ "" : Bool) && strHas (strLower s) "captcha")

/-- `Check1FsrarClient.prepare_check`, up to network I/O: parse the given
document, locate and classify the form, build the pending metadata and
choose the captcha image element. -/
def prepareCheck (doc : Node) (mark_code : String) : Except DiscoverError PrepareResult :=
  match Node.findTag "form" doc with
  | none => .error .noFormFound
  | some form =>
    let action := (form.attr "action").getD ""
    let action_url := urljoin BASE_URL action
    let st := classifyFold (Node.findAllTag "input" form) ([], none, none)
    match st.2.1 with
    | none => .error .noMarkFieldFound
    | some mark_field =>
      let captcha_field := st.2.2.getD "captcha"
      let headers : Dict :=
        match dictGet st.1 "__RequestVerificationToken" with
        | none => []
        | some v => if v = "" then [] else [("X-Request-Verification-Token", v)]
      let extra := dictPop (dictPop st.1 mark_field) captcha_field
      match (Node.findTag "img" form).orElse (fun _ => findCaptchaImg doc) with
      | none => .error .noCaptchaImageFound
      | some img =>
        .ok { pending := { mark_code := mark_code, action_url := action_url,
                           mark_field := mark_field, captcha_field := captcha_field,
                           extra_fields := extra, headers := headers },
              captchaImg := img }

/-- An outgoing POST request as `submit_check` assembles it. -/
structure Request where
  url : String
  body : Dict
  headers : Dict
deriving DecidableEq

/-- `Check1FsrarClient.submit_check`, up to network I/O: build the POST
request from the pending metadata and the captcha answer.  `form_data`
starts as a copy of `extra_fields`, then the mark field and the captcha
field are assigned (in that order); the base headers are overlaid with
`pending.headers`. -/
def submitCheck (pending : PendingCheck) (captcha_value : String) : Request :=
  let form_data := dictSet (dictSet pending.extra_fields pending.mark_field pending.mark_code)
      pending.captcha_field captcha_value
  let headers := dictUpdate
      [("Referer", BASE_URL), ("Content-Type", "application/x-www-form-urlencoded")]
      pending.headers
  { url := pending.action_url, body := form_data, headers := headers }

/-- A sequence of submissions performed with the same pending value, one
per answer: `submit_check` keeps no record of earlier calls, so each call
builds and sends a request. -/
def submitMany (pending : PendingCheck) (answers : List String) : List Request :=
  answers.map (submitCheck pending)

/-! ## Response normalization (submit_check, lines 142-144) -/

/-- The part of an HTTP response that the normalization looks at. -/
structure HttpResponse where
  headers : Dict
  body : String

/-- The result shape handed back to the caller: a parsed structured
mapping, or the raw text. -/
inductive VerificationResult : Type where
  | jsonResult : List (String × String) → VerificationResult
  | textResult : String → VerificationResult
deriving DecidableEq

/-- The dispatch of submit_check's return: parse as JSON when the declared
content type contains `application/json`, otherwise hand back the raw
body.  The JSON parser itself is library code (requests/json) and is a
parameter. -/
def normalizeResponse (parse : String → List (String × String)) (r : HttpResponse) :
    VerificationResult :=
  if strHas ((dictGet r.headers "Content-Type").getD "") "application/json" then
    .jsonResult (parse r.body)
  else
    .textResult r.body

/-! ## Heap model of submit_check's dict handling

Python dicts are heap objects reached through references.  To state that
`submit_check` never mutates the dicts the pending value points at (it
works on copies), the two dict-valued fields are modelled as heap
addresses and the body of `submit_check` is replayed operation by
operation on an explicit heap. -/

/-- A heap of dict objects; an address is an index, allocation appends. -/
abbrev Heap := List Dict

/-- Dict object stored at an address (a dangling address reads as empty,
never reached under the validity hypotheses). -/
def heapGet (h : Heap) (a : Nat) : Dict := h.getD a []

/-- Overwrite the dict object at an address. -/
def heapSet (h : Heap) (a : Nat) (d : Dict) : Heap := h.set a d

/-- The `PendingCheck` value with its two dict fields as heap addresses,
as a Python object holds references, not copies. -/
structure PendingCheckRef where
  mark_code : String
  action_url : String
  mark_field : String
  captcha_field : String
  extra_fields : Nat
  headers : Nat
deriving DecidableEq

/-- The pure value a `PendingCheckRef` denotes on a given heap. -/
def derefPending (h : Heap) (p : PendingCheckRef) : PendingCheck :=
  { mark_code := p.mark_code, action_url := p.action_url,
    mark_field := p.mark_field, captcha_field := p.captcha_field,
    extra_fields := heapGet h p.extra_fields, headers := heapGet h p.headers }

/-- `submit_check` replayed on the explicit heap:
`form_data = dict(pending.extra_fields)` allocates a copy, the two
assignments mutate that copy, `headers = {...}` allocates a fresh dict and
`headers.update(pending.headers)` mutates it.  Returns the final heap and
the assembled request. -/
def submitCheckHeap (h : Heap) (p : PendingCheckRef) (captcha_value : String) :
    Heap × Request :=
  let fdAddr := h.length
  let h1 := h ++ [heapGet h p.extra_fields]
  let h2 := heapSet h1 fdAddr (dictSet (heapGet h1 fdAddr) p.mark_field p.mark_code)
  let h3 := heapSet h2 fdAddr (dictSet (heapGet h2 fdAddr) p.captcha_field captcha_value)
  let hdAddr := h3.length
  let h4 := h3 ++ [[("Referer", BASE_URL), ("Content-Type", "application/x-www-form-urlencoded")]]
  let h5 := heapSet h4 hdAddr (dictUpdate (heapGet h4 hdAddr) (heapGet h4 p.headers))
  (h5, { url := p.action_url, body := heapGet h5 fdAddr, headers := heapGet h5 hdAddr })

/-! ## Generic helpers for stating and proving loop results -/

/-- The last element of a list, or a default option when the list is
empty; this is exactly how a fold that overwrites an optional slot on
every match ends up. -/
def optLastOr {α : Type} : List α → Option α → Option α
  | [], o => o
  | x :: xs, _ => optLastOr xs (some x)

/-! ## Concrete documents and values used by witnesses and counterexamples -/

/-- Form holding two mark-field candidates and two captcha-named inputs:
separates first-match from last-match classification. -/
def exForm1 : Node :=
  .elem "form" [("action", "/check")] [
    .elem "input" [("name", "code1"), ("type", "text")] [],
    .elem "input" [("name", "code2"), ("type", "text")] [],
    .elem "input" [("name", "captcha_a"), ("type", "text")] [],
    .elem "input" [("name", "captcha_b"), ("type", "text")] [],
    .elem "input" [("name", "__RequestVerificationToken"), ("type", "hidden"), ("value", "tok1")] [],
    .elem "img" [("src", "/captcha.png")] []]

/-- Document wrapping `exForm1`. -/
def exDoc1 : Node := .elem "html" [] [.elem "body" [] [exForm1]]

/-- The result `prepareCheck` produces on `exDoc1` with mark code `M`. -/
def exRes1 : PrepareResult :=
  { pending := { mark_code := "M", action_url := "https://check1.fsrar.ru/check",
                 mark_field := "code2", captcha_field := "captcha_b",
                 extra_fields := [("code1", ""), ("captcha_a", ""),
                                  ("__RequestVerificationToken", "tok1")],
                 headers := [("X-Request-Verification-Token", "tok1")] },
    captchaImg := .elem "img" [("src", "/captcha.png")] [] }

/-- Form whose anti-forgery token field carries an empty value. -/
def exForm4 : Node :=
  .elem "form" [("action", "/check")] [
    .elem "input" [("name", "rar_mark"), ("type", "text")] [],
    .elem "input" [("name", "__RequestVerificationToken"), ("type", "hidden"), ("value", "")] [],
    .elem "img" [("src", "/captcha.png")] []]

/-- Document wrapping `exForm4`. -/
def exDoc4 : Node := .elem "html" [] [.elem "body" [] [exForm4]]

/-- Form with a mark-field candidate and an image but no captcha-named
input. -/
def exForm8 : Node :=
  .elem "form" [("action", "/check")] [
    .elem "input" [("name", "kod_value"), ("type", "text")] [],
    .elem "input" [("name", "mode"), ("type", "hidden"), ("value", "std")] [],
    .elem "img" [("src", "/img/challenge.png")] []]

/-- Document wrapping `exForm8`. -/
def exDoc8 : Node := .elem "html" [] [.elem "body" [] [exForm8]]

/-- Form whose single text input matches both the mark-field and the
captcha-field heuristics. -/
def exForm10 : Node :=
  .elem "form" [("action", "/check")] [
    .elem "input" [("name", "code_captcha"), ("type", "text")] [],
    .elem "img" [("src", "/captcha.png")] []]

/-- Document wrapping `exForm10`. -/
def exDoc10 : Node := .elem "html" [] [.elem "body" [] [exForm10]]

/-- A concrete pending value for submission examples. -/
def exPending : PendingCheck :=
  { mark_code := "MARK123", action_url := "https://check1.fsrar.ru/checkMark",
    mark_field := "rar_mark", captcha_field := "img_captcha",
    extra_fields := [("__RequestVerificationToken", "tok1")],
    headers := [("X-Request-Verification-Token", "tok1")] }

/-- A concrete heap for the heap-model examples: address 0 holds the
extra fields, address 1 the headers. -/
def exHeap : Heap :=
  [[("__RequestVerificationToken", "tok1")], [("X-Request-Verification-Token", "tok1")]]

/-- A concrete pending reference pointing into `exHeap`. -/
def exPendingRef : PendingCheckRef :=
  { mark_code := "MARK123", action_url := "https://check1.fsrar.ru/checkMark",
    mark_field := "rar_mark", captcha_field := "img_captcha",
    extra_fields := 0, headers := 1 }

/-! # Lemmas -/

/-! ## Dict operation lemmas -/

theorem dictGet_nil (k : String) : dictGet [] k = none := rfl

theorem dictGet_cons (k v n : String) (d : Dict) :
    dictGet ((k, v) :: d) n = if k = n then some v else dictGet d n := rfl

theorem dictGet_dictSet_self (d : Dict) (k v : String) :
    dictGet (dictSet d k v) k = some v := by
  induction d with
  | nil => simp [dictGet, dictSet]
  | cons p rest ih =>
    by_cases h : p.1 = k <;> simp [dictGet, dictSet, h, ih]

theorem dictGet_dictSet_ne (d : Dict) (k v n : String) (hnk : n ≠ k) :
    dictGet (dictSet d k v) n = dictGet d n := by
  have hkn : ¬ (k = n) := fun hh => hnk hh.symm
  induction d with
  | nil => simp [dictGet, dictSet, hkn]
  | cons p rest ih =>
    by_cases h : p.1 = k
    · have h1 : ¬ (p.1 = n) := by rw [h]; exact hkn
      simp [dictGet, dictSet, h, h1, hkn]
    · by_cases h3 : p.1 = n <;> simp [dictGet, dictSet, h, h3, hnk, ih]

theorem dictGet_dictPop_self (d : Dict) (k : String) :
    dictGet (dictPop d k) k = none := by
  induction d with
  | nil => rfl
  | cons p rest ih =>
    by_cases h : p.1 = k <;> simp [dictGet, dictPop, h, ih]

theorem dictGet_dictPop_ne (d : Dict) (k n : String) (hnk : n ≠ k) :
    dictGet (dictPop d k) n = dictGet d n := by
  have hkn : ¬ (k = n) := fun hh => hnk hh.symm
  induction d with
  | nil => rfl
  | cons p rest ih =>
    by_cases h : p.1 = k
    · have h1 : ¬ (p.1 = n) := by rw [h]; exact hkn
      simp [dictGet, dictPop, h, h1, hkn, ih]
    · by_cases h3 : p.1 = n <;> simp [dictGet, dictPop, h, h3, hnk, ih]

theorem dictGet_eq_none_iff (d : Dict) (k : String) :
    dictGet d k = none ↔ k ∉ d.map Prod.fst := by
  induction d with
  | nil => simp [dictGet]
  | cons p rest ih =>
    obtain ⟨a, b⟩ := p
    by_cases h : a = k
    · simp [dictGet, h]
    · have hka : ¬ (k = a) := fun hh => h hh.symm
      simp [dictGet, h, ih, hka]

theorem dictGet_dictUpdate :
    ∀ (other base : Dict) (n : String), (other.map Prod.fst).Nodup →
      dictGet (dictUpdate base other) n =
        match dictGet other n with
        | some v => some v
        | none => dictGet base n := by
  intro other
  induction other with
  | nil => intro base n _; rfl
  | cons p rest ih =>
    intro base n hwf
    obtain ⟨k, v⟩ := p
    rw [List.map_cons, List.nodup_cons] at hwf
    have hstep : dictUpdate base ((k, v) :: rest) = dictUpdate (dictSet base k v) rest := rfl
    rw [hstep, ih (dictSet base k v) n hwf.2, dictGet_cons]
    by_cases hkn : k = n
    · subst hkn
      have hnone : dictGet rest k = none := (dictGet_eq_none_iff rest k).mpr hwf.1
      simp [hnone, dictGet_dictSet_self]
    · cases hr : dictGet rest n with
      | none => simp [hkn, dictGet_dictSet_ne base k v n (fun hh => hkn hh.symm)]
      | some w => simp [hkn]

/-! ## optLastOr lemmas -/

theorem optLastOr_eq_getLast? {α : Type} :
    ∀ (l : List α) (o : Option α),
      optLastOr l o = match l.getLast? with | some x => some x | none => o := by
  intro l
  induction l with
  | nil => intro o; rfl
  | cons x xs ih =>
    intro o
    cases xs with
    | nil => rfl
    | cons y ys =>
      show optLastOr (y :: ys) (some x) = _
      rw [ih (some x), List.getLast?_cons_cons]
      cases h : (y :: ys).getLast? with
      | none => simp at h
      | some z => rfl

theorem optLastOr_none {α : Type} (l : List α) : optLastOr l none = l.getLast? := by
  rw [optLastOr_eq_getLast?]
  cases l.getLast? <;> rfl

theorem optLastOr_eq_none_iff {α : Type} (l : List α) :
    optLastOr l none = none ↔ l = [] := by
  rw [optLastOr_none]
  exact List.getLast?_eq_none_iff

/-! ## Correctness of the character-level string tests -/

theorem chStarts_iff (p l : List Char) : chStarts p l = true ↔ p <+: l := by
  induction p generalizing l with
  | nil => simp [chStarts]
  | cons a as ih =>
    cases l with
    | nil => simp [chStarts]
    | cons b bs => simp [chStarts, List.cons_prefix_cons, ih]

theorem chSub_iff (p l : List Char) : chSub p l = true ↔ p <:+: l := by
  induction l with
  | nil => simp [chSub, List.isEmpty_iff]
  | cons c rest ih => simp [chSub, chStarts_iff, ih, List.infix_cons_iff]

theorem strHas_of_strEnds_captcha (s : String) (h : strEnds s "_captcha" = true) :
    strHas s "captcha" = true := by
  unfold strEnds at h
  rw [chStarts_iff, List.reverse_prefix] at h
  have hsuf : "captcha".data <:+ s.data :=
    List.IsSuffix.trans ⟨['_'], by decide⟩ h
  unfold strHas
  rw [chSub_iff]
  exact hsuf.isInfix

/-! ## Characterization of the input-classification loop -/

theorem classifyFold_nil (st : ClassifyState) : classifyFold [] st = st := rfl

theorem classifyFold_cons (n : Node) (rest : List Node) (st : ClassifyState) :
    classifyFold (n :: rest) st = classifyFold rest (classifyStep st n) := rfl

theorem classifyFold_mark :
    ∀ (inputs : List Node) (st : ClassifyState),
      (classifyFold inputs st).2.1 = optLastOr (markCandidateNames inputs) st.2.1 := by
  intro inputs
  induction inputs with
  | nil => intro st; rfl
  | cons n rest ih =>
    intro st
    rw [classifyFold_cons, ih]
    cases hn : inputName n with
    | none => simp [markCandidateNames, List.filterMap_cons, hn, classifyStep]
    | some name =>
      by_cases hm : isMarkInput n name = true <;>
        simp [markCandidateNames, List.filterMap_cons, hn, hm, classifyStep, optLastOr]

theorem classifyFold_captcha :
    ∀ (inputs : List Node) (st : ClassifyState),
      (classifyFold inputs st).2.2 = optLastOr (captchaMatchNames inputs) st.2.2 := by
  intro inputs
  induction inputs with
  | nil => intro st; rfl
  | cons n rest ih =>
    intro st
    rw [classifyFold_cons, ih]
    cases hn : inputName n with
    | none => simp [captchaMatchNames, List.filterMap_cons, hn, classifyStep]
    | some name =>
      by_cases hc : isCaptchaName (strLower name) = true <;>
        simp [captchaMatchNames, List.filterMap_cons, hn, hc, classifyStep, optLastOr]

theorem classifyFold_dict :
    ∀ (inputs : List Node) (st : ClassifyState) (k : String),
      dictGet (classifyFold inputs st).1 k =
        optLastOr (namedValues inputs k) (dictGet st.1 k) := by
  intro inputs
  induction inputs with
  | nil => intro st k; rfl
  | cons n rest ih =>
    intro st k
    rw [classifyFold_cons, ih]
    cases hn : inputName n with
    | none => simp [namedValues, List.filterMap_cons, hn, classifyStep]
    | some name =>
      by_cases hk : name = k
      · subst hk
        simp [namedValues, List.filterMap_cons, hn, classifyStep, optLastOr,
              dictGet_dictSet_self]
      · simp [namedValues, List.filterMap_cons, hn, hk, classifyStep, optLastOr,
              dictGet_dictSet_ne st.1 name (inputValue n) k (fun hh => hk hh.symm)]

/-! ## Inversion of a successful prepare_check -/

theorem prepareCheck_ok_inv (doc : Node) (m : String) (res : PrepareResult)
    (h : prepareCheck doc m = .ok res) :
    ∃ f, Node.findTag "form" doc = some f ∧
      ∃ mark, (classifyFold (Node.findAllTag "input" f) ([], none, none)).2.1 = some mark ∧
        res.pending.mark_code = m ∧
        res.pending.action_url = urljoin BASE_URL ((f.attr "action").getD "") ∧
        res.pending.mark_field = mark ∧
        res.pending.captcha_field =
          ((classifyFold (Node.findAllTag "input" f) ([], none, none)).2.2).getD "captcha" ∧
        res.pending.extra_fields =
          dictPop
            (dictPop (classifyFold (Node.findAllTag "input" f) ([], none, none)).1 mark)
            (((classifyFold (Node.findAllTag "input" f) ([], none, none)).2.2).getD "captcha") ∧
        res.pending.headers =
          (match dictGet (classifyFold (Node.findAllTag "input" f) ([], none, none)).1
              "__RequestVerificationToken" with
           | none => []
           | some v => if v = "" then [] else [("X-Request-Verification-Token", v)]) ∧
        (Node.findTag "img" f).orElse (fun _ => findCaptchaImg doc) = some res.captchaImg := by
  unfold prepareCheck at h
  split at h
  · exact absurd h (by simp)
  next f hf =>
    simp only at h
    split at h
    · exact absurd h (by simp)
    next mark hmark =>
      split at h
      · exact absurd h (by simp)
      next img himg =>
        refine ⟨f, hf, mark, hmark, ?_⟩
        cases h
        exact ⟨rfl, rfl, rfl, rfl, rfl, rfl, himg⟩

/-! ## Branch computation lemmas for prepare_check -/

theorem prepareCheck_noForm (doc : Node) (m : String)
    (hf : Node.findTag "form" doc = none) :
    prepareCheck doc m = .error .noFormFound := by
  unfold prepareCheck
  rw [hf]

theorem prepareCheck_noMark (doc : Node) (m : String) (f : Node)
    (hf : Node.findTag "form" doc = some f)
    (hmark : (classifyFold (Node.findAllTag "input" f) ([], none, none)).2.1 = none) :
    prepareCheck doc m = .error .noMarkFieldFound := by
  unfold prepareCheck
  rw [hf]
  simp only [hmark]

theorem prepareCheck_noImg (doc : Node) (m : String) (f : Node) (mark : String)
    (hf : Node.findTag "form" doc = some f)
    (hmark : (classifyFold (Node.findAllTag "input" f) ([], none, none)).2.1 = some mark)
    (himg : (Node.findTag "img" f).orElse (fun _ => findCaptchaImg doc) = none) :
    prepareCheck doc m = .error .noCaptchaImageFound := by
  unfold prepareCheck
  rw [hf]
  simp only [hmark, himg]

theorem prepareCheck_eq_ok (doc : Node) (m : String) (f : Node) (mark : String) (img : Node)
    (hf : Node.findTag "form" doc = some f)
    (hmark : (classifyFold (Node.findAllTag "input" f) ([], none, none)).2.1 = some mark)
    (himg : (Node.findTag "img" f).orElse (fun _ => findCaptchaImg doc) = some img) :
    prepareCheck doc m =
      .ok { pending :=
              { mark_code := m,
                action_url := urljoin BASE_URL ((f.attr "action").getD ""),
                mark_field := mark,
                captcha_field :=
                  ((classifyFold (Node.findAllTag "input" f) ([], none, none)).2.2).getD "captcha",
                extra_fields :=
                  dictPop
                    (dictPop (classifyFold (Node.findAllTag "input" f) ([], none, none)).1 mark)
                    (((classifyFold (Node.findAllTag "input" f) ([], none, none)).2.2).getD "captcha"),
                headers :=
                  (match dictGet (classifyFold (Node.findAllTag "input" f) ([], none, none)).1
                      "__RequestVerificationToken" with
                   | none => []
                   | some v => if v = "" then [] else [("X-Request-Verification-Token", v)]) },
            captchaImg := img } := by
  unfold prepareCheck
  rw [hf]
  simp only [hmark, himg]

/-! ## Captcha-image fallback and candidate-name facts -/

theorem findCaptchaImg_eq_none_iff (doc : Node) :
    findCaptchaImg doc = none ↔
      (Node.findAllTag "img" doc).all
        (fun i => !(strHas (strLower ((i.attr "src").getD "")) "captcha")) = true := by
  unfold findCaptchaImg
  rw [List.find?_eq_none, List.all_eq_true]
  constructor
  · intro h i hi
    have hp := h i hi
    cases hsrc : i.attr "src" with
    | none =>
      simp only [hsrc, Option.getD_none]
      decide
    | some s =>
      rw [hsrc] at hp
      by_cases hs : s = ""
      · subst hs
        simp only [Option.getD_some]
        decide
      · simp only [Option.getD_some]
        simp [hs] at hp
        simp [hp]
  · intro h i hi
    have hh := h i hi
    cases hsrc : i.attr "src" with
    | none => simp [hsrc]
    | some s =>
      rw [hsrc] at hh
      simp only [Option.getD_some] at hh
      simp [hsrc, Bool.not_eq_true] at hh ⊢
      intro _
      simpa using hh

theorem markCandidateNames_isMarkName (inputs : List Node) (n : String)
    (h : n ∈ markCandidateNames inputs) : isMarkName (strLower n) = true := by
  unfold markCandidateNames at h
  rw [List.mem_filterMap] at h
  obtain ⟨i, _, hfi⟩ := h
  cases hn : inputName i with
  | none => rw [hn] at hfi; exact absurd hfi (by simp)
  | some name =>
    rw [hn] at hfi
    by_cases hm : isMarkInput i name = true
    · simp [hm] at hfi
      subst hfi
      unfold isMarkInput at hm
      rw [Bool.and_eq_true] at hm
      exact hm.2
    · simp [hm] at hfi

theorem captchaMatchNames_isCaptchaName (inputs : List Node) (n : String)
    (h : n ∈ captchaMatchNames inputs) : isCaptchaName (strLower n) = true := by
  unfold captchaMatchNames at h
  rw [List.mem_filterMap] at h
  obtain ⟨i, _, hfi⟩ := h
  cases hn : inputName i with
  | none => rw [hn] at hfi; exact absurd hfi (by simp)
  | some name =>
    rw [hn] at hfi
    by_cases hc : isCaptchaName (strLower name) = true
    · simp [hc] at hfi
      subst hfi
      exact hc
    · simp [hc] at hfi

/-! ## Heap lemmas -/

theorem heapGet_append_lt (h : Heap) (l : List Dict) (a : Nat) (ha : a < h.length) :
    heapGet (h ++ l) a = heapGet h a := by
  unfold heapGet
  rw [List.getD_eq_getElem?_getD, List.getD_eq_getElem?_getD, List.getElem?_append_left ha]

theorem heapGet_set_ne (h : Heap) (b a : Nat) (d : Dict) (hab : b ≠ a) :
    heapGet (heapSet h b d) a = heapGet h a := by
  unfold heapGet heapSet
  rw [List.getD_eq_getElem?_getD, List.getD_eq_getElem?_getD, List.getElem?_set_ne hab]

theorem heapGet_concat_self (h : Heap) (d : Dict) :
    heapGet (h ++ [d]) h.length = d := by
  unfold heapGet
  rw [List.getD_eq_getElem?_getD, List.getElem?_concat_length]
  rfl

theorem heapGet_set_self (h : Heap) (a : Nat) (d : Dict) (ha : a < h.length) :
    heapGet (heapSet h a d) a = d := by
  unfold heapGet heapSet
  rw [List.getD_eq_getElem?_getD]
  simp [List.getElem?_set, ha]

/-! # Claims -/

/-- C2 (counterexample): a `PendingCheck` is not one-shot — two submissions
with the same pending value are both performed (the claim that at most one
submission can be performed with it is false): the trace of two calls has
length two, both build full requests, and the second carries the second
answer in the captcha slot. -/
theorem C2_counterexample :
    ¬ ((submitMany exPending ["11111", "22222"]).length ≤ 1) ∧
    submitMany exPending ["11111", "22222"] =
      [submitCheck exPending "11111", submitCheck exPending "22222"] ∧
    dictGet (submitCheck exPending "22222").body exPending.captcha_field = some "22222" := by
  refine ⟨by decide, rfl, rfl⟩

/-- C2 (amended): `submit_check` keeps no record of consumption — a second
call with an already-used `PendingCheck` is not rejected; every call in a
sequence of submissions builds and performs a complete request to the
pending action URL with the given captcha answer filled in. -/
theorem C2_not_one_shot (p : PendingCheck) (a1 a2 : String) :
    submitMany p [a1, a2] = [submitCheck p a1, submitCheck p a2] ∧
    (submitMany p [a1, a2]).length = 2 ∧
    (submitCheck p a2).url = p.action_url ∧
    dictGet (submitCheck p a2).body p.captcha_field = some a2 := by
  refine ⟨rfl, rfl, rfl, ?_⟩
  show dictGet (dictSet (dictSet p.extra_fields p.mark_field p.mark_code)
      p.captcha_field a2) p.captcha_field = some a2
  exact dictGet_dictSet_self _ _ _

/-- C6: the POST body of `submit_check` is `extra_fields` extended with
the mark field mapped to the unchanged mark code and the captcha field
mapped to the answer (the captcha assignment coming second, it wins a
collision), and the request headers are the Referer/Content-Type base
overlaid by `pending.headers`, the pending entry winning a collision. -/
theorem C6_submit_request (p : PendingCheck) (a : String)
    (hwf : (p.headers.map Prod.fst).Nodup) :
    (submitCheck p a).url = p.action_url ∧
    (∀ n, dictGet (submitCheck p a).body n =
      if n = p.captcha_field then some a
      else if n = p.mark_field then some p.mark_code
      else dictGet p.extra_fields n) ∧
    (∀ n, dictGet (submitCheck p a).headers n =
      match dictGet p.headers n with
      | some v => some v
      | none =>
        if n = "Referer" then some BASE_URL
        else if n = "Content-Type" then some "application/x-www-form-urlencoded"
        else none) := by
  refine ⟨rfl, ?_, ?_⟩
  · intro n
    show dictGet (dictSet (dictSet p.extra_fields p.mark_field p.mark_code)
        p.captcha_field a) n = _
    by_cases hc : n = p.captcha_field
    · subst hc
      rw [dictGet_dictSet_self, if_pos rfl]
    · rw [dictGet_dictSet_ne _ _ _ _ hc, if_neg hc]
      by_cases hm : n = p.mark_field
      · subst hm
        rw [dictGet_dictSet_self, if_pos rfl]
      · rw [dictGet_dictSet_ne _ _ _ _ hm, if_neg hm]
  · intro n
    show dictGet (dictUpdate
        [("Referer", BASE_URL), ("Content-Type", "application/x-www-form-urlencoded")]
        p.headers) n = _
    rw [dictGet_dictUpdate p.headers _ n hwf]
    cases dictGet p.headers n with
    | some v => rfl
    | none =>
      show dictGet
          [("Referer", BASE_URL), ("Content-Type", "application/x-www-form-urlencoded")] n =
        if n = "Referer" then some BASE_URL
        else if n = "Content-Type" then some "application/x-www-form-urlencoded" else none
      rw [dictGet_cons, dictGet_cons, dictGet_nil]
      by_cases h1 : n = "Referer"
      · rw [if_pos h1.symm, if_pos h1]
      · have e1 : ¬ (("Referer" : String) = n) := fun hh => h1 hh.symm
        rw [if_neg e1, if_neg h1]
        by_cases h2 : n = "Content-Type"
        · rw [if_pos h2.symm, if_pos h2]
        · have e2 : ¬ (("Content-Type" : String) = n) := fun hh => h2 hh.symm
          rw [if_neg e2, if_neg h2]

/-- C6 (witness): applying the characterization to a concrete pending
value with nodup header keys. -/
theorem C6_submit_request_witness :
    (exPending.headers.map Prod.fst).Nodup ∧
    dictGet (submitCheck exPending "77777").body exPending.captcha_field = some "77777" := by
  refine ⟨by decide, ?_⟩
  have h := (C6_submit_request exPending "77777" (by decide)).2.1 exPending.captcha_field
  rw [h, if_pos rfl]

/-- C7: `submit_check` returns the parsed structured mapping exactly when
the declared content type contains `application/json`, and the raw body as
plain text exactly otherwise; every result is one of the two shapes. -/
theorem C7_response_normalization (parse : String → List (String × String))
    (r : HttpResponse) :
    (normalizeResponse parse r = .jsonResult (parse r.body) ↔
      strHas ((dictGet r.headers "Content-Type").getD "") "application/json" = true) ∧
    (normalizeResponse parse r = .textResult r.body ↔
      strHas ((dictGet r.headers "Content-Type").getD "") "application/json" = false) ∧
    (normalizeResponse parse r = .jsonResult (parse r.body) ∨
      normalizeResponse parse r = .textResult r.body) := by
  unfold normalizeResponse
  by_cases h : strHas ((dictGet r.headers "Content-Type").getD "") "application/json" = true
  · rw [if_pos h]
    refine ⟨⟨fun _ => h, fun _ => rfl⟩, ⟨fun hh => absurd hh (by simp), fun hh => ?_⟩,
      Or.inl rfl⟩
    rw [h] at hh
    cases hh
  · have hf : strHas ((dictGet r.headers "Content-Type").getD "") "application/json" = false := by
      revert h
      cases strHas ((dictGet r.headers "Content-Type").getD "") "application/json" <;> simp
    rw [if_neg h]
    refine ⟨⟨fun hh => absurd hh (by simp), fun hh => ?_⟩, ⟨fun _ => hf, fun _ => rfl⟩,
      Or.inr rfl⟩
    rw [hf] at hh
    cases hh

/-- C10: the classification does not force the mark field and the captcha
field apart — on a form whose single text input is named `code_captcha`
both classify to that one name, and the POST body then maps the single
name to the captcha answer while the mark code appears under no key of
the body. -/
theorem C10_field_collision :
    (prepareCheck exDoc10 "MARK123").map
        (fun r => (r.pending.mark_field, r.pending.captcha_field)) =
      .ok ("code_captcha", "code_captcha") ∧
    (prepareCheck exDoc10 "MARK123").map
        (fun r => (submitCheck r.pending "77x").body) = .ok [("code_captcha", "77x")] ∧
    (prepareCheck exDoc10 "MARK123").map
        (fun r => ((submitCheck r.pending "77x").body.map Prod.snd).contains "MARK123") =
      .ok false :=
  ⟨rfl, rfl, rfl⟩

/-- Length of a heap after an allocation. -/
theorem heapLen_concat (h : Heap) (d : Dict) : (h ++ [d]).length = h.length + 1 := by simp

/-- Length of a heap after an in-place overwrite. -/
theorem heapLen_set (h : Heap) (a : Nat) (d : Dict) : (heapSet h a d).length = h.length := by
  simp [heapSet]

/-- C9: submission never mutates the pending value — the dict objects the
`PendingCheck` references (its `extra_fields` and `headers`) are unchanged
on the heap after `submit_check` runs, because the POST body and request
headers are built in freshly allocated dicts; the request returned equals
the pure construction from the pending value as read before the call. -/
theorem C9_pending_immutable (h : Heap) (p : PendingCheckRef) (c : String)
    (he : p.extra_fields < h.length) (hh : p.headers < h.length) :
    heapGet (submitCheckHeap h p c).1 p.extra_fields = heapGet h p.extra_fields ∧
    heapGet (submitCheckHeap h p c).1 p.headers = heapGet h p.headers ∧
    (submitCheckHeap h p c).2 = submitCheck (derefPending h p) c := by
  unfold submitCheckHeap
  refine ⟨?_, ?_, ?_⟩
  · rw [heapGet_set_ne]
    · rw [heapGet_append_lt]
      · rw [heapGet_set_ne]
        · rw [heapGet_set_ne]
          · rw [heapGet_append_lt _ _ _ he]
          · omega
        · omega
      · simp only [heapLen_set, heapLen_concat]
        omega
    · simp only [heapLen_set, heapLen_concat]
      omega
  · rw [heapGet_set_ne]
    · rw [heapGet_append_lt]
      · rw [heapGet_set_ne]
        · rw [heapGet_set_ne]
          · rw [heapGet_append_lt _ _ _ hh]
          · omega
        · omega
      · simp only [heapLen_set, heapLen_concat]
        omega
    · simp only [heapLen_set, heapLen_concat]
      omega
  · unfold submitCheck derefPending
    simp only [Request.mk.injEq]
    refine ⟨trivial, ?_, ?_⟩
    · rw [heapGet_set_ne]
      · rw [heapGet_append_lt]
        · rw [heapGet_set_self]
          · rw [heapGet_set_self]
            · rw [heapGet_concat_self]
            · simp only [heapLen_set, heapLen_concat]
              omega
          · simp only [heapLen_set, heapLen_concat]
            omega
        · simp only [heapLen_set, heapLen_concat]
          omega
      · simp only [heapLen_set, heapLen_concat]
        omega
    · rw [heapGet_set_self]
      · rw [heapGet_concat_self]
        rw [heapGet_append_lt]
        · rw [heapGet_set_ne]
          · rw [heapGet_set_ne]
            · rw [heapGet_append_lt _ _ _ hh]
            · omega
          · omega
        · simp only [heapLen_set, heapLen_concat]
          omega
      · simp only [heapLen_set, heapLen_concat]
        omega

/-! ## Loop results from the empty initial state -/

theorem classifyFold_mark_init (inputs : List Node) :
    (classifyFold inputs ([], none, none)).2.1 = (markCandidateNames inputs).getLast? := by
  rw [classifyFold_mark]
  exact optLastOr_none _

theorem classifyFold_captcha_init (inputs : List Node) :
    (classifyFold inputs ([], none, none)).2.2 = (captchaMatchNames inputs).getLast? := by
  rw [classifyFold_captcha]
  exact optLastOr_none _

theorem classifyFold_dict_init (inputs : List Node) (k : String) :
    dictGet (classifyFold inputs ([], none, none)).1 k = lastValueOf inputs k := by
  rw [classifyFold_dict]
  exact optLastOr_none _

/-- C1 (counterexample): on `exDoc1` the first mark-field candidate in
document order is `code1` and the first captcha-matching input is
`captcha_a`, yet discovery classifies `code2` and `captcha_b` — the last
matches — so the claim that the first matching input wins is false. -/
theorem C1_counterexample :
    (markCandidateNames (Node.findAllTag "input" exForm1)).head? = some "code1" ∧
    (captchaMatchNames (Node.findAllTag "input" exForm1)).head? = some "captcha_a" ∧
    (prepareCheck exDoc1 "M").map (fun r => r.pending.mark_field) = .ok "code2" ∧
    (prepareCheck exDoc1 "M").map (fun r => r.pending.captcha_field) = .ok "captcha_b" ∧
    ("code2" : String) ≠ "code1" ∧ ("captcha_b" : String) ≠ "captcha_a" :=
  ⟨rfl, rfl, rfl, rfl, by decide, by decide⟩

/-- C1 (amended): whenever discovery succeeds, the classified mark field
is the LAST input in document order satisfying the mark-field candidate
condition, and the classified captcha field is the LAST input whose
lower-cased name contains `captcha` or ends with `_captcha` (defaulting to
`captcha` when there is none); classification is deterministic, being a
pure function of the document. -/
theorem C1_last_match (doc : Node) (m : String) (res : PrepareResult) (f : Node)
    (hf : Node.findTag "form" doc = some f)
    (h : prepareCheck doc m = .ok res) :
    (markCandidateNames (Node.findAllTag "input" f)).getLast? = some res.pending.mark_field ∧
    res.pending.captcha_field =
      ((captchaMatchNames (Node.findAllTag "input" f)).getLast?).getD "captcha" := by
  obtain ⟨f', hf', mark, hmark, hmc, hau, hmf, hcf, hef, hhd, himg⟩ :=
    prepareCheck_ok_inv doc m res h
  have hff : f = f' := by
    rw [hf] at hf'
    exact Option.some_inj.mp hf'
  subst hff
  constructor
  · rw [hmf, ← hmark, classifyFold_mark_init]
  · rw [hcf, classifyFold_captcha_init]

/-- C1 (witness): the amended theorem applied to `exDoc1`. -/
theorem C1_last_match_witness :
    Node.findTag "form" exDoc1 = some exForm1 ∧
    prepareCheck exDoc1 "M" = .ok exRes1 ∧
    (markCandidateNames (Node.findAllTag "input" exForm1)).getLast? =
      some exRes1.pending.mark_field :=
  ⟨rfl, rfl, (C1_last_match exDoc1 "M" exRes1 exForm1 rfl rfl).1⟩

/-- C3: on every successful discovery, `extra_fields` holds exactly the
form's named-input pairs minus the classified mark field and captcha
field — lookups of any other name return the value the form gave it, and
the two classified names are never keys of `extra_fields`. -/
theorem C3_extra_fields_exact (doc : Node) (m : String) (res : PrepareResult) (f : Node)
    (hf : Node.findTag "form" doc = some f)
    (h : prepareCheck doc m = .ok res) :
    (∀ n, dictGet res.pending.extra_fields n =
      if n = res.pending.mark_field ∨ n = res.pending.captcha_field then none
      else lastValueOf (Node.findAllTag "input" f) n) ∧
    dictGet res.pending.extra_fields res.pending.mark_field = none ∧
    dictGet res.pending.extra_fields res.pending.captcha_field = none := by
  obtain ⟨f', hf', mark, hmark, hmc, hau, hmf, hcf, hef, hhd, himg⟩ :=
    prepareCheck_ok_inv doc m res h
  have hff : f = f' := by
    rw [hf] at hf'
    exact Option.some_inj.mp hf'
  subst hff
  have main : ∀ n, dictGet res.pending.extra_fields n =
      if n = res.pending.mark_field ∨ n = res.pending.captcha_field then none
      else lastValueOf (Node.findAllTag "input" f) n := by
    intro n
    rw [hef, hmf, hcf]
    generalize ((classifyFold (Node.findAllTag "input" f) ([], none, none)).2.2).getD "captcha"
      = cf
    by_cases hm : n = mark
    · subst hm
      by_cases hc : n = cf
      · subst hc
        rw [dictGet_dictPop_self, if_pos (Or.inl rfl)]
      · rw [dictGet_dictPop_ne _ _ _ hc, dictGet_dictPop_self, if_pos (Or.inl rfl)]
    · by_cases hc : n = cf
      · subst hc
        rw [dictGet_dictPop_self, if_pos (Or.inr rfl)]
      · rw [dictGet_dictPop_ne _ _ _ hc, dictGet_dictPop_ne _ _ _ hm,
          classifyFold_dict_init, if_neg (fun ho => ho.elim hm hc)]
  refine ⟨main, ?_, ?_⟩
  · rw [main res.pending.mark_field, if_pos (Or.inl rfl)]
  · rw [main res.pending.captcha_field, if_pos (Or.inr rfl)]

/-- C3 (witness): the exactness applied to `exDoc1`, checking that the
classified mark field is not a key of the produced `extra_fields`. -/
theorem C3_extra_fields_exact_witness :
    Node.findTag "form" exDoc1 = some exForm1 ∧
    prepareCheck exDoc1 "M" = .ok exRes1 ∧
    dictGet exRes1.pending.extra_fields exRes1.pending.mark_field = none :=
  ⟨rfl, rfl, (C3_extra_fields_exact exDoc1 "M" exRes1 exForm1 rfl rfl).2.1⟩

/-- C4 (counterexample): in `exDoc4` a hidden field named exactly
`__RequestVerificationToken` exists (with empty value), yet the produced
headers are empty instead of containing `X-Request-Verification-Token`
mapped to that value — the code only emits the header for a truthy,
non-empty token value — so the claim as stated is false. -/
theorem C4_counterexample :
    lastValueOf (Node.findAllTag "input" exForm4) "__RequestVerificationToken" = some "" ∧
    (prepareCheck exDoc4 "M").map (fun r => r.pending.headers) = .ok [] ∧
    (prepareCheck exDoc4 "M").map
      (fun r => dictGet r.pending.extra_fields "__RequestVerificationToken") =
      .ok (some "") :=
  ⟨rfl, rfl, rfl⟩

/-- Nothing named like the anti-forgery token matches the mark-field
heuristic, so the classified mark field never collides with it. -/
theorem mark_ne_token (inputs : List Node) (mark : String)
    (hmark : (classifyFold inputs ([], none, none)).2.1 = some mark) :
    mark ≠ "__RequestVerificationToken" := by
  rw [classifyFold_mark_init] at hmark
  have him := markCandidateNames_isMarkName _ _ (List.mem_of_getLast?_eq_some hmark)
  intro he
  subst he
  exact absurd him (by decide)

/-- Nothing named like the anti-forgery token matches the captcha
heuristic, and the fallback name differs from it, so the classified
captcha field never collides with it. -/
theorem captcha_ne_token (inputs : List Node) :
    ((classifyFold inputs ([], none, none)).2.2).getD "captcha" ≠
      "__RequestVerificationToken" := by
  rw [classifyFold_captcha_init]
  cases hc : (captchaMatchNames inputs).getLast? with
  | none => decide
  | some c =>
    have hic := captchaMatchNames_isCaptchaName _ _ (List.mem_of_getLast?_eq_some hc)
    simp only [Option.getD_some]
    intro he
    subst he
    exact absurd hic (by decide)

/-- C4 (amended): when discovery succeeds, the outgoing headers carry
`X-Request-Verification-Token` mapped to the (last) value of a field
named exactly `__RequestVerificationToken` precisely when such a field
exists with a non-empty value; when the field is absent or its value is
empty, the headers are empty.  The field itself always stays in
`extra_fields` with its value — both representations are kept. -/
theorem C4_token_header (doc : Node) (m : String) (res : PrepareResult) (f : Node)
    (hf : Node.findTag "form" doc = some f)
    (h : prepareCheck doc m = .ok res) :
    res.pending.headers =
      (match lastValueOf (Node.findAllTag "input" f) "__RequestVerificationToken" with
       | none => []
       | some v => if v = "" then [] else [("X-Request-Verification-Token", v)]) ∧
    dictGet res.pending.extra_fields "__RequestVerificationToken" =
      lastValueOf (Node.findAllTag "input" f) "__RequestVerificationToken" := by
  obtain ⟨f', hf', mark, hmark, hmc, hau, hmf, hcf, hef, hhd, himg⟩ :=
    prepareCheck_ok_inv doc m res h
  have hff : f = f' := by
    rw [hf] at hf'
    exact Option.some_inj.mp hf'
  subst hff
  constructor
  · rw [hhd, classifyFold_dict_init]
  · rw [hef]
    have h1 : ("__RequestVerificationToken" : String) ≠
        ((classifyFold (Node.findAllTag "input" f) ([], none, none)).2.2).getD "captcha" :=
      fun he => captcha_ne_token (Node.findAllTag "input" f) he.symm
    have h2 : ("__RequestVerificationToken" : String) ≠ mark :=
      fun he => mark_ne_token (Node.findAllTag "input" f) mark hmark he.symm
    rw [dictGet_dictPop_ne _ _ _ h1, dictGet_dictPop_ne _ _ _ h2, classifyFold_dict_init]

/-- C4 (witness): the amended theorem applied to `exDoc1`, whose token
field carries the non-empty value `tok1`. -/
theorem C4_token_header_witness :
    Node.findTag "form" exDoc1 = some exForm1 ∧
    prepareCheck exDoc1 "M" = .ok exRes1 ∧
    exRes1.pending.headers = [("X-Request-Verification-Token", "tok1")] ∧
    dictGet exRes1.pending.extra_fields "__RequestVerificationToken" = some "tok1" := by
  have h := C4_token_header exDoc1 "M" exRes1 exForm1 rfl rfl
  exact ⟨rfl, rfl, h.1.trans rfl, h.2.trans rfl⟩

/-- When no input carries a name whose lower-cased form contains
`captcha`, no input matches the captcha heuristic at all (a name ending
in `_captcha` would in particular contain `captcha`). -/
theorem captchaMatchNames_eq_nil (inputs : List Node)
    (hc : inputs.all noCaptchaNamed = true) :
    captchaMatchNames inputs = [] := by
  rw [List.eq_nil_iff_forall_not_mem]
  intro n hn
  unfold captchaMatchNames at hn
  rw [List.mem_filterMap] at hn
  obtain ⟨i, hi, hfi⟩ := hn
  rw [List.all_eq_true] at hc
  have hci := hc i hi
  unfold noCaptchaNamed at hci
  cases hni : inputName i with
  | none =>
    rw [hni] at hfi
    exact absurd hfi (by simp)
  | some nm =>
    rw [hni] at hfi hci
    simp only [Bool.not_eq_true'] at hci
    by_cases hcap : isCaptchaName (strLower nm) = true
    · unfold isCaptchaName at hcap
      rw [Bool.or_eq_true] at hcap
      cases hcap with
      | inl hl => rw [hci] at hl; cases hl
      | inr hr => rw [strHas_of_strEnds_captcha _ hr] at hci; cases hci
    · simp [hcap] at hfi

/-- C8: on a form holding a mark-field candidate and an `<img>`, with no
input whose lower-cased name contains `captcha`, discovery succeeds and
the captcha field name defaults to the literal string `captcha`. -/
theorem C8_captcha_fallback (doc : Node) (m : String) (f : Node)
    (hf : Node.findTag "form" doc = some f)
    (hm : markCandidateNames (Node.findAllTag "input" f) ≠ [])
    (hc : (Node.findAllTag "input" f).all noCaptchaNamed = true)
    (himg : (Node.findTag "img" f).isSome = true) :
    ∃ res, prepareCheck doc m = .ok res ∧ res.pending.captcha_field = "captcha" := by
  have hcapnil : (classifyFold (Node.findAllTag "input" f) ([], none, none)).2.2 = none := by
    rw [classifyFold_captcha_init, captchaMatchNames_eq_nil _ hc]
    rfl
  obtain ⟨mark, hmark⟩ : ∃ mark,
      (classifyFold (Node.findAllTag "input" f) ([], none, none)).2.1 = some mark := by
    cases hg : (classifyFold (Node.findAllTag "input" f) ([], none, none)).2.1 with
    | none =>
      rw [classifyFold_mark_init] at hg
      exact absurd (List.getLast?_eq_none_iff.mp hg) hm
    | some mark => exact ⟨mark, rfl⟩
  obtain ⟨img, himg2⟩ : ∃ img, Node.findTag "img" f = some img := by
    cases hg : Node.findTag "img" f with
    | none => rw [hg] at himg; cases himg
    | some img => exact ⟨img, rfl⟩
  refine ⟨_, prepareCheck_eq_ok doc m f mark img hf hmark (by rw [himg2]; rfl), ?_⟩
  show ((classifyFold (Node.findAllTag "input" f) ([], none, none)).2.2).getD "captcha"
      = "captcha"
  rw [hcapnil]
  rfl

/-- C8 (witness): the fallback applied to `exDoc8`, whose form has the
mark candidate `kod_value`, a hidden `mode` field, an image and no
captcha-named input. -/
theorem C8_captcha_fallback_witness :
    markCandidateNames (Node.findAllTag "input" exForm8) ≠ [] ∧
    (Node.findAllTag "input" exForm8).all noCaptchaNamed = true ∧
    (Node.findTag "img" exForm8).isSome = true ∧
    ∃ res, prepareCheck exDoc8 "M" = .ok res ∧ res.pending.captcha_field = "captcha" :=
  ⟨by decide, rfl, rfl, C8_captcha_fallback exDoc8 "M" exForm8 rfl (by decide) rfl rfl⟩

/-- C9 (witness): the immutability theorem applied to a concrete heap and
pending reference. -/
theorem C9_pending_immutable_witness :
    exPendingRef.extra_fields < exHeap.length ∧
    exPendingRef.headers < exHeap.length ∧
    heapGet (submitCheckHeap exHeap exPendingRef "99999").1 exPendingRef.extra_fields =
      heapGet exHeap exPendingRef.extra_fields :=
  ⟨by decide, by decide,
    (C9_pending_immutable exHeap exPendingRef "99999" (by decide) (by decide)).1⟩

/-- C5: discovery fails with `noFormFound` exactly when the document has
no form; with `noMarkFieldFound` exactly when a form exists but no input
matches the mark-field candidate condition; with `noCaptchaImageFound`
exactly when form and mark candidate exist but the form holds no `<img>`
and no `<img>` anywhere in the document has a `src` containing `captcha`
case-insensitively; and on success the chosen captcha image prefers an
`<img>` inside the form over the document-wide fallback. -/
theorem C5_error_taxonomy (doc : Node) (m : String) :
    (prepareCheck doc m = .error .noFormFound ↔ Node.findTag "form" doc = none) ∧
    (prepareCheck doc m = .error .noMarkFieldFound ↔
      ∃ f, Node.findTag "form" doc = some f ∧
        markCandidateNames (Node.findAllTag "input" f) = []) ∧
    (prepareCheck doc m = .error .noCaptchaImageFound ↔
      ∃ f, Node.findTag "form" doc = some f ∧
        markCandidateNames (Node.findAllTag "input" f) ≠ [] ∧
        Node.findTag "img" f = none ∧
        (Node.findAllTag "img" doc).all
          (fun i => !(strHas (strLower ((i.attr "src").getD "")) "captcha")) = true) ∧
    ((prepareCheck doc m).toOption.map (fun r => r.captchaImg) =
      match Node.findTag "form" doc with
      | none => none
      | some f =>
        if markCandidateNames (Node.findAllTag "input" f) = [] then none
        else (Node.findTag "img" f).orElse (fun _ => findCaptchaImg doc)) := by
  cases hform : Node.findTag "form" doc with
  | none =>
    have hpc := prepareCheck_noForm doc m hform
    refine ⟨?_, ?_, ?_, ?_⟩
    · rw [hpc]
      simp
    · rw [hpc]
      simp [hform]
    · rw [hpc]
      simp [hform]
    · rw [hpc]
      simp [hform, Except.toOption]
  | some f =>
    cases hmark : (classifyFold (Node.findAllTag "input" f) ([], none, none)).2.1 with
    | none =>
      have hmc : markCandidateNames (Node.findAllTag "input" f) = [] := by
        rw [classifyFold_mark_init] at hmark
        exact List.getLast?_eq_none_iff.mp hmark
      have hpc := prepareCheck_noMark doc m f hform hmark
      refine ⟨?_, ?_, ?_, ?_⟩
      · rw [hpc]
        simp [hform]
      · rw [hpc]
        simp [hform, hmc]
      · rw [hpc]
        simp [hform, hmc]
      · rw [hpc]
        simp [hform, hmc, Except.toOption]
    | some mark =>
      have hmc : markCandidateNames (Node.findAllTag "input" f) ≠ [] := by
        intro hc
        rw [classifyFold_mark_init, hc] at hmark
        exact absurd hmark (by simp)
      cases himg : (Node.findTag "img" f).orElse (fun _ => findCaptchaImg doc) with
      | none =>
        have himgs : Node.findTag "img" f = none ∧ findCaptchaImg doc = none := by
          cases hfi : Node.findTag "img" f with
          | some x =>
            rw [hfi] at himg
            exact absurd himg (by simp [Option.orElse])
          | none =>
            rw [hfi] at himg
            exact ⟨rfl, himg⟩
        have hall := (findCaptchaImg_eq_none_iff doc).mp himgs.2
        have hpc := prepareCheck_noImg doc m f mark hform hmark himg
        refine ⟨?_, ?_, ?_, ?_⟩
        · rw [hpc]
          simp [hform]
        · rw [hpc]
          simp [hform, hmc]
        · rw [hpc]
          simp [hform, hmc, himgs.1, hall]
        · rw [hpc]
          simp [hform, hmc, himg, Except.toOption]
      | some img =>
        have hpc := prepareCheck_eq_ok doc m f mark img hform hmark himg
        refine ⟨?_, ?_, ?_, ?_⟩
        · constructor
          · intro hcontr
            rw [hpc] at hcontr
            exact Except.noConfusion hcontr
          · intro hnone
            exact Option.noConfusion hnone
        · constructor
          · intro hcontr
            rw [hpc] at hcontr
            exact Except.noConfusion hcontr
          · rintro ⟨f', hf', hmc'⟩
            have hfe : f = f' := Option.some_inj.mp hf'
            subst hfe
            exact absurd hmc' hmc
        · constructor
          · intro hcontr
            rw [hpc] at hcontr
            exact Except.noConfusion hcontr
          · rintro ⟨f', hf', _, hino, hall⟩
            have hfe : f = f' := Option.some_inj.mp hf'
            subst hfe
            have hfc : findCaptchaImg doc = none := (findCaptchaImg_eq_none_iff doc).mpr hall
            rw [hino] at himg
            have himg2 : findCaptchaImg doc = some img := himg
            rw [hfc] at himg2
            exact Option.noConfusion himg2
        · rw [hpc]
          simp only [hform]
          rw [if_neg hmc, himg]
          rfl
